import Mathlib

/-!
Verification development for the Cliff-Horizon weather-derivative pricer.

The Python sources (`src/config.py`, `src/distributions.py`, `src/monte_carlo.py`,
`src/pricing.py`, `src/simulator.py`) are shallowly embedded below.  Floating
point numbers are modelled by exact rationals, numpy arrays by lists, and the
numpy pseudo-random generator by an explicit deterministic step function on a
generator-state record.  `np.random.RandomState(None)` seeds itself from the
operating system, which the embedding models as an explicit `entropy` input
that is independent of the configured simulation seed.
-/

/-! ## Configuration constants (src/config.py) -/

def MIN_SAMPLE_SIZE_PARAMETRIC : Nat := 20

def GOF_SIGNIFICANCE_LEVEL : ℚ := 1/20

def CAPITAL_VAR_MULTIPLIER : ℚ := 3/2

def DEFAULT_SETTLEMENT_DAYS : ℚ := 30

/-! ## Pseudo-random generator model

`np.random.seed(s)` / `np.random.RandomState(s)` give a generator whose whole
stream is a deterministic function of `s`; `np.random.RandomState(None)` seeds
from operating-system entropy.  The Mersenne-Twister step itself is modelled by
a linear congruential step: every claim below depends only on the generator
being a deterministic function of its seed state, never on the particular
stream values. -/

structure NpRandomState where
  state : Nat
deriving DecidableEq

def lcgNext (s : Nat) : Nat := (1664525 * s + 1013904223) % 4294967296

def npNext (g : NpRandomState) : Nat × NpRandomState :=
  let s := lcgNext g.state
  (s, ⟨s⟩)

/-- Uniform draw in [0,1) derived from one generator step. -/
def uniformOfState (g : NpRandomState) : ℚ × NpRandomState :=
  let (v, g1) := npNext g
  ((v : ℚ) / 4294967296, g1)

/-- Model of `np.random.choice(xs, size=n, replace=True)` (uniform over the
elements of `xs`): `n` successive draws, each picking one index. -/
def npChoiceList (xs : List ℤ) : Nat → NpRandomState → List ℤ × NpRandomState
  | 0, g => ([], g)
  | n + 1, g =>
    let (v, g1) := npNext g
    let x := xs.getD (v % xs.length) 0
    let r := npChoiceList xs n g1
    (x :: r.1, r.2)

/-- Model of `np.random.shuffle`: repeatedly draw an index, move that element
to the front, and shuffle the rest.  The fuel argument equals the list length
at every reachable call. -/
def npShuffleAux : Nat → List ℤ → NpRandomState → List ℤ × NpRandomState
  | 0, _, g => ([], g)
  | _ + 1, [], g => ([], g)
  | fuel + 1, a :: as, g =>
    let (v, g1) := npNext g
    let j := v % (a :: as).length
    let r := npShuffleAux fuel ((a :: as).eraseIdx j) g1
    ((a :: as).getD j 0 :: r.1, r.2)

def npShuffle (xs : List ℤ) (g : NpRandomState) : List ℤ × NpRandomState :=
  npShuffleAux xs.length xs g

/-! ## Distribution model (src/distributions.py, DistributionFit)

The `parameters` dict of an empirical fit holds keys `p_k`; it is embedded as
an association list from the count `k` to its probability. -/

inductive DistModel where
  | poisson (lam : ℚ)
  | negative_binomial (n p : ℚ)
  | empirical (params : List (Nat × ℚ))
deriving DecidableEq

/-- Dictionary lookup `parameters.get('p_k', 0.0)` of the empirical pmf. -/
def empPmf (ps : List (Nat × ℚ)) (k : Nat) : ℚ :=
  ((ps.find? (fun vp => vp.1 == k)).map (fun vp => vp.2)).getD 0

/-- Cumulative sum `for i in range(k+1): cum += parameters.get('p_i', 0.0)`. -/
def cdfOfPmf (pmf : Nat → ℚ) (k : Nat) : ℚ :=
  ((List.range (k + 1)).map pmf).sum

def empCdf (ps : List (Nat × ℚ)) (k : Nat) : ℚ :=
  cdfOfPmf (empPmf ps) k

/-- Empirical branch of `DistributionFit.ppf`: the first `k in range(100)`
with `cdf(k) >= q`, falling back to 99. -/
def empPpf (ps : List (Nat × ℚ)) (q : ℚ) : Nat :=
  (((List.range 100).find? (fun k => decide (q ≤ empCdf ps k)))).getD 99

/-- Normalisation `probabilities / probabilities.sum()` in the empirical
branch of `rvs`. -/
def normalizeProbs (ps : List (Nat × ℚ)) : List (Nat × ℚ) :=
  let total := (ps.map (fun vp => vp.2)).sum
  ps.map (fun vp => (vp.1, vp.2 / total))

/-- Model of `np.random.choice(values, p=probabilities)` for one draw:
inverse-cdf selection of the first value whose remaining cumulative
probability exceeds the uniform draw. -/
def pickCum : List (Nat × ℚ) → ℚ → ℤ
  | [], _ => 0
  | (v, p) :: rest, u => if u < p then (v : ℤ) else pickCum rest (u - p)

/-- One variate of the fitted model from a given generator.  numpy's Poisson
and negative-binomial samplers are modelled abstractly as deterministic
functions of the generator state and the parameters; the claims below depend
only on that determinism, not on the sampled law. -/
def DistModel.drawOne : DistModel → NpRandomState → ℤ × NpRandomState
  | .poisson lam, g =>
    let (v, g1) := npNext g
    (((v % (lam.floor.toNat + 2) : Nat) : ℤ), g1)
  | .negative_binomial n _, g =>
    let (v, g1) := npNext g
    (((v % (n.floor.toNat + 2) : Nat) : ℤ), g1)
  | .empirical ps, g =>
    let (u, g1) := uniformOfState g
    (pickCum (normalizeProbs ps) u, g1)

def drawMany (d : DistModel) : Nat → NpRandomState → List ℤ × NpRandomState
  | 0, g => ([], g)
  | n + 1, g =>
    let (x, g1) := d.drawOne g
    let r := drawMany d n g1
    (x :: r.1, r.2)

/-- `DistributionFit.rvs(size, random_state)`: constructs
`np.random.RandomState(random_state)` and draws `size` variates from it.
With `random_state = None` (the default, and the way every call in
`monte_carlo.py` invokes it) the generator is seeded from operating-system
entropy, not from the simulation seed. -/
def DistModel.rvs (d : DistModel) (size : Nat) (randomState : Option Nat)
    (entropy : Nat) : List ℤ :=
  (drawMany d size ⟨randomState.getD entropy⟩).1

/-! ## Monte Carlo simulation (src/monte_carlo.py) -/

structure SimulationParameters where
  n_simulations : Nat
  random_seed : Nat
  method : String
  bootstrap_weight : ℚ
deriving DecidableEq

/-- The `int(n * self.params.bootstrap_weight)` bootstrap count of the hybrid
method; Python `int()` truncates, which on the non-negative product is the
floor. -/
def hybridBootstrapCount (n : Nat) (w : ℚ) : Nat :=
  (⌊(n : ℚ) * w⌋).toNat

/-- `MonteCarloSimulator.simulate_rainy_days`.  The constructor has already
executed `np.random.seed(params.random_seed)`, so the process-wide generator
starts at the seed; `entropy` feeds only the `RandomState(None)` instances
created inside `rvs`.  `none` models the `ValueError` on an unknown method. -/
def simulate_rainy_days (dist : DistModel) (historical : List ℤ)
    (params : SimulationParameters) (entropy : Nat) : Option (List ℤ) :=
  let g0 : NpRandomState := ⟨params.random_seed⟩
  let n := params.n_simulations
  if params.method = "bootstrap" then
    some (npChoiceList historical n g0).1
  else if params.method = "parametric" then
    some (dist.rvs n none entropy)
  else if params.method = "hybrid" then
    let nB := hybridBootstrapCount n params.bootstrap_weight
    let nP := n - nB
    let bsg := npChoiceList historical nB g0
    let ps := dist.rvs nP none entropy
    some (npShuffle (bsg.1 ++ ps) bsg.2).1
  else
    none

/-- Per-element payoff of `MonteCarloSimulator.calculate_payout`. -/
def payoutOf (strike maxDays : Nat) (rate : ℚ) (d : ℤ) : ℚ :=
  ((min (max (d - (strike : ℤ)) 0) (maxDays : ℤ) : ℤ) : ℚ) * rate

def calculate_payout (strike maxDays : Nat) (rate : ℚ) (days : List ℤ) : List ℚ :=
  days.map (payoutOf strike maxDays rate)

/-- `np.mean` of a payout sample. -/
def listMean (xs : List ℚ) : ℚ := xs.sum / (xs.length : ℚ)

/-- `np.percentile(xs, q)` with the default linear interpolation. -/
def npPercentile (xs : List ℚ) (q : ℚ) : ℚ :=
  let s := List.insertionSort (fun a b => a ≤ b) xs
  if s.length = 0 then 0
  else
    let p := q * ((s.length : ℚ) - 1) / 100
    let lo := (⌊p⌋).toNat
    let hi := (⌈p⌉).toNat
    let frac := p - (⌊p⌋ : ℚ)
    s.getD lo 0 + frac * (s.getD hi 0 - s.getD lo 0)

def CONFIDENCE_LEVELS : List ℚ := [9/10, 19/20, 99/100]

/-- VaR of one confidence level inside `calculate_var_cvar`. -/
def varAt (payouts : List ℚ) (level : ℚ) : ℚ :=
  npPercentile payouts (level * 100)

/-- CVaR of one confidence level inside `calculate_var_cvar`:
`excess = payouts[payouts >= var]; mean(excess) if len(excess) > 0 else var`. -/
def cvarAt (payouts : List ℚ) (level : ℚ) : ℚ :=
  let v := varAt payouts level
  let excess := payouts.filter (fun x => decide (v ≤ x))
  if 0 < excess.length then listMean excess else v

/-- `MonteCarloSimulator.calculate_var_cvar` over a list of levels. -/
def calculate_var_cvar (payouts : List ℚ) (levels : List ℚ) :
    List (ℚ × ℚ × ℚ) :=
  levels.map (fun lv => (lv, varAt payouts lv, cvarAt payouts lv))

/-! ## Distribution fitting (src/distributions.py, DistributionFitter) -/

inductive FitterError where
  | insufficientData
  | invalidData
deriving DecidableEq

/-- The validation in `DistributionFitter.__init__`: fewer than five points
raises first, then any negative value raises.  (The statistics computed before
validation never raise in numpy and are irrelevant to the error behaviour.) -/
def fitter_init (data : List ℤ) : Except FitterError (List ℤ) :=
  if data.length < 5 then Except.error FitterError.insufficientData
  else if data.any (fun x => decide (x < 0)) then Except.error FitterError.invalidData
  else Except.ok data

def countOcc (data : List Nat) (v : Nat) : Nat :=
  (data.filter (fun x => x == v)).length

/-- `np.unique` returns the distinct values in increasing order. -/
def uniqueSorted (data : List Nat) : List Nat :=
  List.insertionSort (fun a b => a ≤ b) data.dedup

/-- `DistributionFitter.fit_empirical`: probability mass = relative frequency
per distinct observed value (the `p_k` parameter table). -/
def fit_empirical (data : List Nat) : List (Nat × ℚ) :=
  (uniqueSorted data).map (fun v => (v, (countOcc data v : ℚ) / (data.length : ℚ)))

/-- Diagnostics record of one candidate fit, as used by model selection.
The log-likelihood based scores of the scipy fits are transcendental numbers;
they enter selection only through the recorded `aic` and `gof_pvalue` fields,
which the theorems therefore quantify over. -/
structure FitResult where
  distribution_type : String
  aic : ℚ
  gof_pvalue : ℚ
deriving DecidableEq

/-- `is_good_fit=(gof_pval > GOF_SIGNIFICANCE_LEVEL)`, as set by every
constructor of a `DistributionFit` (the empirical fit records p-value 1). -/
def FitResult.is_good_fit (f : FitResult) : Bool :=
  decide (GOF_SIGNIFICANCE_LEVEL < f.gof_pvalue)

/-- Python `min(fits, key=lambda f: f.aic)`: the first element of least aic. -/
def minByAic : List FitResult → Option FitResult
  | [] => none
  | f :: fs => some (fs.foldl (fun best g => if g.aic < best.aic then g else best) f)

/-- The list comprehension `[f for f in fits if f.distribution_type == 'empirical'][0]`;
`none` models the `IndexError` on an empty comprehension. -/
def firstEmpirical (fits : List FitResult) : Option FitResult :=
  fits.find? (fun f => f.distribution_type == "empirical")

/-- `DistributionFitter.select_best_distribution`.  `poissonFit`/`nbFit` are
the outcomes of `fit_poisson`/`fit_negative_binomial` (only attempted when the
sample is large enough); `none` models a fit whose exception was caught and
logged as a warning. -/
def select_best_distribution (n_samples : Nat) (empFit : FitResult)
    (poissonFit nbFit : Option FitResult) : Option FitResult :=
  let fits := [empFit] ++
    (if MIN_SAMPLE_SIZE_PARAMETRIC ≤ n_samples then
      poissonFit.toList ++ nbFit.toList else [])
  if n_samples < MIN_SAMPLE_SIZE_PARAMETRIC then
    firstEmpirical fits
  else
    let parametric := fits.filter (fun f => f.distribution_type != "empirical")
    match minByAic parametric with
    | some best => if best.is_good_fit then some best else firstEmpirical fits
    | none => firstEmpirical fits

/-! ## Chi-squared degrees of freedom (src/distributions.py, _chi_squared_test)

The source decides the parameter count by `if 'lambda' in str(pmf_func)`.
`str` of a Python function is its repr; for the two call sites, both of which
pass a lambda, it has the shape `<function QUALNAME.<locals>.<lambda> at 0x...>`
(the address hex varies and is irrelevant to a `'lambda' in ...` test, so it
is elided from the model). -/

def isPrefixChars : List Char → List Char → Bool
  | [], _ => true
  | _ :: _, [] => false
  | a :: as, b :: bs => a == b && isPrefixChars as bs

def containsSubChars (needle : List Char) : List Char → Bool
  | [] => isPrefixChars needle []
  | b :: bs => isPrefixChars needle (b :: bs) || containsSubChars needle bs

/-- Python `needle in hay` on strings. -/
def strContains (hay needle : String) : Bool :=
  containsSubChars needle.data hay.data

def pythonLambdaRepr (qualname : String) : String :=
  "<function " ++ qualname ++ ".<locals>.<lambda>>"

def poissonPmfRepr : String :=
  pythonLambdaRepr "DistributionFitter.fit_poisson"

def nbinomPmfRepr : String :=
  pythonLambdaRepr "DistributionFitter.fit_negative_binomial"

/-- Degrees-of-freedom computation of `_chi_squared_test`: bins − 1 − 1 when
`'lambda' in str(pmf_func)`, else bins − 1 − 2, floored at 1. -/
def chiSquaredDf (nBins : Nat) (pmfRepr : String) : Nat :=
  let df : ℤ :=
    if strContains pmfRepr "lambda" then (nBins : ℤ) - 1 - 1
    else (nBins : ℤ) - 1 - 2
  (max df 1).toNat

/-- Degrees of freedom as the specification states them: bins − 1 − (number of
estimated parameters), floored at 1. -/
def dfSpec (nBins : Nat) (nParams : Nat) : Nat :=
  (max ((nBins : ℤ) - 1 - (nParams : ℤ)) 1).toNat

/-! ## Pricing (src/pricing.py) -/

structure PricingParameters where
  volatility_loading : ℚ
  basis_risk_loading : ℚ
  profit_margin : ℚ
  operational_cost : ℚ
  cost_of_capital : ℚ
deriving DecidableEq

structure PricingResults where
  expected_payout : ℚ
  variance_payout : ℚ
  std_payout : ℚ
  pure_premium : ℚ
  volatility_charge : ℚ
  basis_risk_charge : ℚ
  technical_premium : ℚ
  capital_required : ℚ
  capital_charge : ℚ
  operational_cost : ℚ
  profit_amount : ℚ
  gross_premium : ℚ
  premium_as_pct_notional : ℚ
  expected_loss_ratio : ℚ
deriving DecidableEq

/-- The summation loop plus tail term of
`PricingEngine.calculate_expected_payout`, returning
(expected payout, variance).  The pmf and cdf of the fitted model enter as
functions; for the empirical model they are `empPmf`/`empCdf`.  The returned
`std_dev = sqrt(variance)` is irrational in general and is carried as an
explicit parameter wherever it is consumed. -/
def calculate_expected_payout (pmf cdf : Nat → ℚ) (strike maxDays : Nat)
    (rate : ℚ) : ℚ × ℚ :=
  let s := (List.range maxDays).foldl
    (fun (acc : ℚ × ℚ) i =>
      let days := strike + 1 + i
      let payout := ((min (days - strike) maxDays : Nat) : ℚ) * rate
      (acc.1 + payout * pmf days, acc.2 + payout ^ 2 * pmf days))
    (0, 0)
  let probExtreme := 1 - cdf (strike + maxDays)
  let maxPayout := (maxDays : ℚ) * rate
  let ep := s.1 + maxPayout * probExtreme
  let epSq := s.2 + maxPayout ^ 2 * probExtreme
  (ep, max 0 (epSq - ep ^ 2))

/-- Expected payout exactly as the specification sentence states it. -/
def expected_payout_spec (pmf cdf : Nat → ℚ) (strike maxDays : Nat)
    (rate : ℚ) : ℚ :=
  (∑ d ∈ Finset.Icc (strike + 1) (strike + maxDays),
      pmf d * ((min (d - strike) maxDays : Nat) : ℚ) * rate)
    + (1 - cdf (strike + maxDays)) * ((maxDays : ℚ) * rate)

/-- Payout variance exactly as the specification sentence states it. -/
def variance_spec (pmf cdf : Nat → ℚ) (strike maxDays : Nat) (rate : ℚ) : ℚ :=
  max 0
    ((∑ d ∈ Finset.Icc (strike + 1) (strike + maxDays),
        pmf d * (((min (d - strike) maxDays : Nat) : ℚ) * rate) ^ 2)
      + (1 - cdf (strike + maxDays)) * ((maxDays : ℚ) * rate) ^ 2
      - expected_payout_spec pmf cdf strike maxDays rate ^ 2)

/-- `PricingEngine.calculate_premium`.  `ep`, `variance`, `std` are the three
outputs of `calculate_expected_payout` (with `std = sqrt variance`);
`maxPayout` is `contract.maximum_payout`. -/
def calculate_premium (ep variance std maxPayout : ℚ) (pp : PricingParameters)
    (var99 : Option ℚ) : PricingResults :=
  let pure_premium := ep
  let volatility_charge := pp.volatility_loading * std
  let basis_risk_charge := pp.basis_risk_loading * pure_premium
  let technical_premium := pure_premium + volatility_charge + basis_risk_charge
  let capital_required :=
    match var99 with
    | some v => CAPITAL_VAR_MULTIPLIER * v
    | none => CAPITAL_VAR_MULTIPLIER * (233/100) * std
  let time_fraction := (DEFAULT_SETTLEMENT_DAYS + 30) / 365
  let capital_charge := pp.cost_of_capital * capital_required * time_fraction
  let operational_cost := pp.operational_cost
  let subtotal := technical_premium + capital_charge + operational_cost
  let profit_amount := pp.profit_margin * subtotal
  let gross_premium := subtotal + profit_amount
  { expected_payout := ep
    variance_payout := variance
    std_payout := std
    pure_premium := pure_premium
    volatility_charge := volatility_charge
    basis_risk_charge := basis_risk_charge
    technical_premium := technical_premium
    capital_required := capital_required
    capital_charge := capital_charge
    operational_cost := operational_cost
    profit_amount := profit_amount
    gross_premium := gross_premium
    premium_as_pct_notional :=
      if 0 < maxPayout then gross_premium / maxPayout * 100 else 0
    expected_loss_ratio :=
      if 0 < gross_premium then ep / gross_premium * 100 else 0 }

/-! ## Orchestrator (src/simulator.py) -/

/-- The premium-recomputation step at the end of
`WeatherDerivativeSimulator.run_simulation`: only when a pass-1 pricing result
exists is the premium recomputed, with `var_99` taken from the simulation. -/
def run_simulation_repricing (pass1 : Option PricingResults)
    (ep variance std maxPayout : ℚ) (pp : PricingParameters) (var99 : ℚ) :
    Option PricingResults :=
  match pass1 with
  | some _ => some (calculate_premium ep variance std maxPayout pp (some var99))
  | none => pass1

/-- Premium flow of `price_contract`: `calculate_premium` runs pass 1 with no
VaR, then `run_simulation` reprices with the simulated VaR99. -/
def price_contract_pricing (ep variance std maxPayout : ℚ)
    (pp : PricingParameters) (var99 : ℚ) : Option PricingResults :=
  run_simulation_repricing
    (some (calculate_premium ep variance std maxPayout pp none))
    ep variance std maxPayout pp var99

/-! ## The worked example (src/simulator.py, create_example_*) -/

def exampleData : List Nat := [7, 10, 9, 12, 8, 14, 9, 11, 8, 10]

def exampleFit : List (Nat × ℚ) := fit_empirical exampleData

def exampleDist : DistModel := .empirical exampleFit

def exampleHist : List ℤ := exampleData.map (fun n => (n : ℤ))

/-! ## Helper lemmas -/

theorem foldl_add_pair (f g : Nat → ℚ) :
    ∀ (l : List Nat) (a b : ℚ),
      l.foldl (fun (acc : ℚ × ℚ) i => (acc.1 + f i, acc.2 + g i)) (a, b) =
        (a + (l.map f).sum, b + (l.map g).sum) := by
  intro l
  induction l with
  | nil => intro a b; simp
  | cons i t ih =>
    intro a b
    simp only [List.foldl_cons, List.map_cons, List.sum_cons, ih]
    simp [add_assoc]

theorem list_range_map_sum (f : Nat → ℚ) (n : Nat) :
    ((List.range n).map f).sum = ∑ i ∈ Finset.range n, f i := by
  induction n with
  | zero => simp
  | succ n ih => rw [List.range_succ]; simp [ih, Finset.sum_range_succ]

theorem getD_nonneg (l : List ℚ) (n : Nat) (d : ℚ) (hd : 0 ≤ d)
    (hl : ∀ x ∈ l, 0 ≤ x) : 0 ≤ l.getD n d := by
  induction l generalizing n with
  | nil => simpa [List.getD]
  | cons a t ih =>
    cases n with
    | zero => exact hl a (by simp)
    | succ m =>
      simp only [List.getD_cons_succ]
      exact ih m (fun x hx => hl x (by simp [hx]))

theorem npPercentile_nonneg (xs : List ℚ) (q : ℚ)
    (h : ∀ x ∈ xs, 0 ≤ x) : 0 ≤ npPercentile xs q := by
  have hmem : ∀ x ∈ List.insertionSort (fun a b => a ≤ b) xs, 0 ≤ x := by
    intro x hx
    exact h x ((List.perm_insertionSort (fun a b => a ≤ b) xs).mem_iff.mp hx)
  unfold npPercentile
  dsimp only
  split
  · exact le_refl 0
  · set s := List.insertionSort (fun a b => a ≤ b) xs with hs
    set p : ℚ := q * ((s.length : ℚ) - 1) / 100 with hp
    have hfrac0 : 0 ≤ p - ((⌊p⌋ : ℤ) : ℚ) := by
      have := Int.floor_le p
      linarith
    have hfrac1 : p - ((⌊p⌋ : ℤ) : ℚ) ≤ 1 := by
      have := Int.lt_floor_add_one p
      push_cast at this ⊢
      linarith
    have ha : 0 ≤ s.getD (⌊p⌋).toNat 0 := getD_nonneg s _ 0 le_rfl hmem
    have hb : 0 ≤ s.getD (⌈p⌉).toNat 0 := getD_nonneg s _ 0 le_rfl hmem
    nlinarith [mul_nonneg hfrac0 hb, mul_nonneg (sub_nonneg.mpr hfrac1) ha]

theorem payoutOf_nonneg (strike maxDays : Nat) (rate : ℚ) (hr : 0 ≤ rate)
    (d : ℤ) : 0 ≤ payoutOf strike maxDays rate d := by
  unfold payoutOf
  apply mul_nonneg _ hr
  have h0 : (0 : ℤ) ≤ min (max (d - (strike : ℤ)) 0) (maxDays : ℤ) :=
    le_min (le_max_right _ _) (by positivity)
  exact_mod_cast h0

theorem find?_append_eq {α : Type} (p : α → Bool) (l1 l2 : List α) :
    (l1 ++ l2).find? p =
      (match l1.find? p with
       | some a => some a
       | none => l2.find? p) := by
  induction l1 with
  | nil => simp
  | cons a t ih =>
    by_cases h : p a = true
    · rw [List.cons_append, List.find?_cons_of_pos _ h, List.find?_cons_of_pos _ h]
    · rw [List.cons_append, List.find?_cons_of_neg _ h, List.find?_cons_of_neg _ h, ih]

theorem find?_range_spec (p : Nat → Bool) :
    ∀ n : Nat,
      ((List.range n).find? p = none → ∀ k < n, p k = false)
      ∧ (∀ k : Nat, (List.range n).find? p = some k →
          p k = true ∧ k < n ∧ ∀ j < k, p j = false) := by
  intro n
  induction n with
  | zero => simp
  | succ n ih =>
    rw [List.range_succ]
    constructor
    · intro hnone k hk
      rw [find?_append_eq] at hnone
      cases h : (List.range n).find? p with
      | some a => rw [h] at hnone; exact absurd hnone (by simp)
      | none =>
        rw [h] at hnone
        rcases Nat.lt_succ_iff_lt_or_eq.mp hk with h2 | h2
        · exact ih.1 h k h2
        · subst h2
          simp only [List.find?_singleton] at hnone
          by_cases hp : p k
          · rw [if_pos hp] at hnone; exact absurd hnone (by simp)
          · simpa using hp
    · intro k hk
      rw [find?_append_eq] at hk
      cases h : (List.range n).find? p with
      | some a =>
        rw [h] at hk
        obtain rfl : a = k := by simpa using hk
        obtain ⟨h1, h2, h3⟩ := ih.2 _ h
        exact ⟨h1, Nat.lt_succ_of_lt h2, h3⟩
      | none =>
        rw [h] at hk
        simp only [List.find?_singleton] at hk
        by_cases hp : p n
        · rw [if_pos hp] at hk
          obtain rfl : n = k := by simpa using hk
          exact ⟨hp, Nat.lt_succ_self _, fun j hj => ih.1 h j hj⟩
        · rw [if_neg hp] at hk; exact absurd hk (by simp)

theorem empPmf_nonneg (ps : List (Nat × ℚ)) (hps : ∀ vp ∈ ps, 0 ≤ vp.2)
    (k : Nat) : 0 ≤ empPmf ps k := by
  unfold empPmf
  cases h : ps.find? (fun vp => vp.1 == k) with
  | none => simp
  | some vp =>
    have := List.mem_of_find?_eq_some h
    simpa using hps vp this

theorem cons_eraseIdx_perm :
    ∀ (l : List ℤ) (j : Nat), j < l.length →
      (l.getD j 0 :: l.eraseIdx j).Perm l := by
  intro l
  induction l with
  | nil => intro j hj; simp at hj
  | cons a t ih =>
    intro j hj
    cases j with
    | zero => simp
    | succ m =>
      have hm : m < t.length := by simpa using hj
      have h1 : (t.getD m 0 :: a :: t.eraseIdx m).Perm
          (a :: (t.getD m 0 :: t.eraseIdx m)) :=
        List.Perm.swap a (t.getD m 0) (t.eraseIdx m)
      have h2 : (a :: (t.getD m 0 :: t.eraseIdx m)).Perm (a :: t) :=
        List.Perm.cons a (ih m hm)
      simpa using h1.trans h2

theorem npShuffleAux_perm :
    ∀ (fuel : Nat) (xs : List ℤ) (g : NpRandomState), xs.length ≤ fuel →
      ((npShuffleAux fuel xs g).1).Perm xs := by
  intro fuel
  induction fuel with
  | zero =>
    intro xs g h
    have : xs = [] := List.eq_nil_of_length_eq_zero (Nat.le_zero.mp h)
    subst this
    simp [npShuffleAux]
  | succ n ih =>
    intro xs g h
    cases xs with
    | nil => simp [npShuffleAux]
    | cons a t =>
      have hlen : (lcgNext g.state) % (a :: t).length < (a :: t).length :=
        Nat.mod_lt _ (by simp)
      have he := List.length_eraseIdx_add_one hlen
      have hlen2 :
          ((a :: t).eraseIdx ((lcgNext g.state) % (a :: t).length)).length ≤ n := by
        omega
      show ((a :: t).getD ((lcgNext g.state) % (a :: t).length) 0 ::
          (npShuffleAux n
            ((a :: t).eraseIdx ((lcgNext g.state) % (a :: t).length))
            ⟨lcgNext g.state⟩).1).Perm (a :: t)
      exact ((ih _ _ hlen2).cons _).trans (cons_eraseIdx_perm (a :: t) _ hlen)

theorem npShuffle_perm (xs : List ℤ) (g : NpRandomState) :
    ((npShuffle xs g).1).Perm xs :=
  npShuffleAux_perm xs.length xs g le_rfl

theorem npChoiceList_length (xs : List ℤ) :
    ∀ (n : Nat) (g : NpRandomState), (npChoiceList xs n g).1.length = n := by
  intro n
  induction n with
  | zero => intro g; rfl
  | succ m ih => intro g; simp [npChoiceList, ih]

theorem drawMany_length (d : DistModel) :
    ∀ (n : Nat) (g : NpRandomState), (drawMany d n g).1.length = n := by
  intro n
  induction n with
  | zero => intro g; rfl
  | succ m ih => intro g; simp [drawMany, ih]

theorem rvs_length (d : DistModel) (n : Nat) (rs : Option Nat) (e : Nat) :
    (d.rvs n rs e).length = n := drawMany_length d n _

/-! ## Claim theorems -/

/-- Claim C9, counterexample: the input `[-1, 2, 3]` contains a negative
element, yet construction raises the insufficient-data error (the length
check runs first), not the invalid-data error the claim requires. -/
theorem fitter_init_negative_short_not_invalid :
    ((-1 : ℤ) ∈ ([-1, 2, 3] : List ℤ) ∧ (-1 : ℤ) < 0)
    ∧ fitter_init [-1, 2, 3] = Except.error FitterError.insufficientData
    ∧ fitter_init [-1, 2, 3] ≠ Except.error FitterError.invalidData := by
  refine ⟨⟨by simp, by norm_num⟩, rfl, ?_⟩
  intro h
  rw [show fitter_init [-1, 2, 3] = Except.error FitterError.insufficientData
      from rfl] at h
  simp at h

/-- Claim C9 (amended): constructing the DistributionFitter raises the
insufficient-data error iff the sequence has fewer than 5 elements; it raises
the invalid-data error iff it has at least 5 elements and some element is
negative (the length check precedes the negativity check); construction
succeeds iff the sequence has at least 5 elements, all non-negative. -/
theorem fitter_init_spec (data : List ℤ) :
    (fitter_init data = Except.error FitterError.insufficientData ↔
      data.length < 5)
    ∧ (fitter_init data = Except.error FitterError.invalidData ↔
      5 ≤ data.length ∧ ∃ x ∈ data, x < 0)
    ∧ (fitter_init data = Except.ok data ↔
      5 ≤ data.length ∧ ∀ x ∈ data, 0 ≤ x) := by
  unfold fitter_init
  by_cases h1 : data.length < 5
  · rw [if_pos h1]
    exact ⟨iff_of_true rfl h1,
      iff_of_false (by simp) (fun hc => by omega),
      iff_of_false (by simp) (fun hc => by omega)⟩
  · rw [if_neg h1]
    by_cases h2 : data.any (fun x => decide (x < 0))
    · rw [if_pos h2]
      have hex : ∃ x ∈ data, x < 0 := by simpa using h2
      refine ⟨iff_of_false (by simp) h1,
        iff_of_true rfl ⟨by omega, hex⟩,
        iff_of_false (by simp) ?_⟩
      rintro ⟨-, hall⟩
      obtain ⟨x, hx, hneg⟩ := hex
      exact absurd (hall x hx) (by omega)
    · rw [if_neg h2]
      have hno : ∀ x ∈ data, ¬ x < 0 := by simpa using h2
      refine ⟨iff_of_false (by simp) h1,
        iff_of_false (by simp) ?_,
        iff_of_true rfl ⟨by omega, fun x hx => by have := hno x hx; omega⟩⟩
      rintro ⟨-, x, hx, hneg⟩
      exact hno x hx hneg

/-- Claim C6: the degrees-of-freedom branch tests `'lambda' in str(pmf_func)`,
and the repr of the negative-binomial candidate's pmf (a Python lambda)
contains the substring `lambda`, so the code computes df = bins − 2 for the
negative-binomial test; with 5 merged bins it returns 3, while
bins − 1 − 2 floored at 1 (the claimed degrees of freedom for two estimated
parameters) is 2. -/
theorem chi_squared_df_nb_mismatch :
    strContains nbinomPmfRepr "lambda" = true
    ∧ chiSquaredDf 5 nbinomPmfRepr = 3
    ∧ dfSpec 5 2 = 2
    ∧ chiSquaredDf 5 nbinomPmfRepr ≠ dfSpec 5 2 := by decide

/-- Claim C7, counterexample: with 1000 trials and bootstrap weight 0.4567 the
code draws `int(1000 * 0.4567) = 456` bootstrap values, not
`round(1000 * 0.4567) = 457` as the claim states. -/
theorem hybrid_count_truncates_not_rounds :
    hybridBootstrapCount 1000 (4567/10000) = 456
    ∧ round ((1000 : ℚ) * (4567/10000)) = 457 := by
  constructor
  · with_unfolding_all decide
  · norm_num [round_eq]

/-- Claim C8, counterexample: for the empirical model fitted to the example
data (all mass at counts ≤ 14), raising the strike from 20 to 21 with
max payout days 7 and rate 14000 leaves the analytic expected payout
unchanged at the same value; it does not strictly decrease. -/
theorem expected_payout_strike_not_strictly_decreasing :
    (calculate_expected_payout (empPmf exampleFit) (empCdf exampleFit) 21 7 14000).1 =
      (calculate_expected_payout (empPmf exampleFit) (empCdf exampleFit) 20 7 14000).1
    ∧ ¬ ((calculate_expected_payout (empPmf exampleFit) (empCdf exampleFit) 21 7 14000).1 <
      (calculate_expected_payout (empPmf exampleFit) (empCdf exampleFit) 20 7 14000).1) := by
  constructor <;> (set_option maxRecDepth 4000 in with_unfolding_all decide)

/-- Claim C10: for every empirical parameter table and probability level, the
empirical inverse cdf returns the smallest `k < 100` with `cdf(k) ≥ q`,
returns 99 when no such `k` exists below 100, and therefore never returns a
value above 99 even when the support of the table lies above 99. -/
theorem empirical_ppf_least_within_bound (ps : List (Nat × ℚ)) (q : ℚ) :
    empPpf ps q ≤ 99
    ∧ (∀ j < empPpf ps q, empCdf ps j < q)
    ∧ (q ≤ empCdf ps (empPpf ps q)
        ∨ (empPpf ps q = 99 ∧ ∀ k < 100, empCdf ps k < q)) := by
  unfold empPpf
  cases h : (List.range 100).find? (fun k => decide (q ≤ empCdf ps k)) with
  | none =>
    have hall := (find?_range_spec _ 100).1 h
    simp only [Option.getD_none]
    refine ⟨le_rfl, ?_, Or.inr ⟨by trivial, ?_⟩⟩
    · intro j hj
      have := hall j (by omega)
      simpa [not_le] using this
    · intro k hk
      have := hall k hk
      simpa [not_le] using this
  | some k =>
    obtain ⟨hk1, hk2, hk3⟩ := (find?_range_spec _ 100).2 k h
    simp only [Option.getD_some]
    refine ⟨by omega, ?_, Or.inl (by simpa using hk1)⟩
    intro j hj
    have := hk3 j hj
    simpa [not_le] using this

theorem expectedPayoutLoop_eq (pmf : Nat → ℚ) (s m : Nat) (r : ℚ) :
    (List.range m).foldl (fun (acc : ℚ × ℚ) i =>
      let days := s + 1 + i
      let payout := ((min (days - s) m : Nat) : ℚ) * r
      (acc.1 + payout * pmf days, acc.2 + payout ^ 2 * pmf days)) (0, 0) =
    (∑ i ∈ Finset.range m, ((min (s + 1 + i - s) m : Nat) : ℚ) * r * pmf (s + 1 + i),
     ∑ i ∈ Finset.range m,
        (((min (s + 1 + i - s) m : Nat) : ℚ) * r) ^ 2 * pmf (s + 1 + i)) := by
  rw [show (fun (acc : ℚ × ℚ) i =>
      let days := s + 1 + i
      let payout := ((min (days - s) m : Nat) : ℚ) * r
      (acc.1 + payout * pmf days, acc.2 + payout ^ 2 * pmf days)) =
    (fun (acc : ℚ × ℚ) i =>
      (acc.1 + ((min (s + 1 + i - s) m : Nat) : ℚ) * r * pmf (s + 1 + i),
       acc.2 + (((min (s + 1 + i - s) m : Nat) : ℚ) * r) ^ 2 * pmf (s + 1 + i)))
    from rfl]
  rw [foldl_add_pair]
  simp [list_range_map_sum]

theorem calculate_expected_payout_eq (pmf cdf : Nat → ℚ) (s m : Nat) (r : ℚ) :
    calculate_expected_payout pmf cdf s m r =
      ((∑ i ∈ Finset.range m, ((min (s + 1 + i - s) m : Nat) : ℚ) * r * pmf (s + 1 + i))
          + (m : ℚ) * r * (1 - cdf (s + m)),
       max 0
         (((∑ i ∈ Finset.range m,
              (((min (s + 1 + i - s) m : Nat) : ℚ) * r) ^ 2 * pmf (s + 1 + i))
            + ((m : ℚ) * r) ^ 2 * (1 - cdf (s + m)))
          - ((∑ i ∈ Finset.range m,
              ((min (s + 1 + i - s) m : Nat) : ℚ) * r * pmf (s + 1 + i))
            + (m : ℚ) * r * (1 - cdf (s + m))) ^ 2)) := by
  unfold calculate_expected_payout
  rw [expectedPayoutLoop_eq]

theorem range_sum_eq_Icc (f : Nat → ℚ) (s m : Nat) :
    ∑ i ∈ Finset.range m, f (s + 1 + i) = ∑ d ∈ Finset.Icc (s + 1) (s + m), f d := by
  rw [← Nat.Ico_succ_right, Finset.sum_Ico_eq_sum_range]
  have h : s + m + 1 - (s + 1) = m := by omega
  rw [h]

/-- Claim C2: for every distribution model (pmf/cdf pair), strike, maximum
payout days and rate, `calculate_expected_payout` returns exactly the sum over
counts `d` from `strike+1` to `strike+max_payout_days` of
`pmf(d)·min(d−strike, max_payout_days)·rate` plus the tail term
`(1−cdf(strike+max_payout_days))·max_payout_days·rate`, and the variance
`E[payout²] − E[payout]²` floored at zero; for the empirical model fitted to
the example data with strike 11, max days 7 and rate 14000 the expected payout
is exactly 5600. -/
theorem calculate_expected_payout_formula :
    (∀ pmf cdf : Nat → ℚ, ∀ s m : Nat, ∀ r : ℚ,
      (calculate_expected_payout pmf cdf s m r).1 = expected_payout_spec pmf cdf s m r
      ∧ (calculate_expected_payout pmf cdf s m r).2 = variance_spec pmf cdf s m r)
    ∧ (calculate_expected_payout (empPmf exampleFit) (empCdf exampleFit) 11 7 14000).1
        = 5600 := by
  constructor
  · intro pmf cdf s m r
    have hS1 : (∑ i ∈ Finset.range m,
        ((min (s + 1 + i - s) m : Nat) : ℚ) * r * pmf (s + 1 + i)) =
        ∑ d ∈ Finset.Icc (s + 1) (s + m), pmf d * ((min (d - s) m : Nat) : ℚ) * r := by
      rw [← range_sum_eq_Icc (fun d => pmf d * ((min (d - s) m : Nat) : ℚ) * r) s m]
      exact Finset.sum_congr rfl fun i _ => by ring
    have hS2 : (∑ i ∈ Finset.range m,
        (((min (s + 1 + i - s) m : Nat) : ℚ) * r) ^ 2 * pmf (s + 1 + i)) =
        ∑ d ∈ Finset.Icc (s + 1) (s + m),
          pmf d * (((min (d - s) m : Nat) : ℚ) * r) ^ 2 := by
      rw [← range_sum_eq_Icc
        (fun d => pmf d * (((min (d - s) m : Nat) : ℚ) * r) ^ 2) s m]
      exact Finset.sum_congr rfl fun i _ => by ring
    constructor
    · rw [calculate_expected_payout_eq]
      unfold expected_payout_spec
      rw [hS1]
      ring
    · rw [calculate_expected_payout_eq]
      unfold variance_spec expected_payout_spec
      dsimp only
      rw [hS1, hS2]
      congr 1
      ring
  · have h12 : empPmf exampleFit 12 = 1/10 := by with_unfolding_all decide
    have h13 : empPmf exampleFit 13 = 0 := by with_unfolding_all decide
    have h14 : empPmf exampleFit 14 = 1/10 := by with_unfolding_all decide
    have h15 : empPmf exampleFit 15 = 0 := by with_unfolding_all decide
    have h16 : empPmf exampleFit 16 = 0 := by with_unfolding_all decide
    have h17 : empPmf exampleFit 17 = 0 := by with_unfolding_all decide
    have h18 : empPmf exampleFit 18 = 0 := by with_unfolding_all decide
    have hc : empCdf exampleFit 18 = 1 := by
      set_option maxRecDepth 4000 in with_unfolding_all decide
    rw [calculate_expected_payout_eq]
    dsimp only
    rw [Finset.sum_range_succ, Finset.sum_range_succ, Finset.sum_range_succ,
      Finset.sum_range_succ, Finset.sum_range_succ, Finset.sum_range_succ,
      Finset.sum_range_succ, Finset.sum_range_zero]
    norm_num [h12, h13, h14, h15, h16, h17, h18, hc]

/-- Claim C5: for each confidence level in the default list
`[0.90, 0.95, 0.99]`, `calculate_var_cvar` reports at that level the VaR
(the level-percentile of the payout sample) together with a CVaR equal to the
mean of all sampled payouts ≥ VaR whenever at least one payout reaches VaR,
and equal to VaR itself when no sampled payout equals or exceeds it. -/
theorem cvar_tail_mean_spec (payouts : List ℚ) (q : ℚ)
    (hq : q ∈ CONFIDENCE_LEVELS) :
    (q, varAt payouts q, cvarAt payouts q) ∈
        calculate_var_cvar payouts CONFIDENCE_LEVELS
    ∧ (payouts.filter (fun x => decide (varAt payouts q ≤ x)) ≠ [] →
        cvarAt payouts q =
          listMean (payouts.filter (fun x => decide (varAt payouts q ≤ x))))
    ∧ (payouts.filter (fun x => decide (varAt payouts q ≤ x)) = [] →
        cvarAt payouts q = varAt payouts q) := by
  refine ⟨List.mem_map_of_mem _ hq, ?_, ?_⟩
  · intro hne
    unfold cvarAt
    dsimp only
    rw [if_pos (List.length_pos.mpr hne)]
  · intro he
    unfold cvarAt
    dsimp only
    rw [he]
    simp

/-- Claim C5 witness: the characterisation applied to the payout sample
`[0, 14000]` at confidence level 0.95. -/
theorem cvar_tail_mean_spec_witness :
    ((19/20 : ℚ), varAt [0, 14000] (19/20), cvarAt [0, 14000] (19/20)) ∈
        calculate_var_cvar [0, 14000] CONFIDENCE_LEVELS
    ∧ (([0, 14000] : List ℚ).filter
          (fun x => decide (varAt [0, 14000] (19/20) ≤ x)) ≠ [] →
        cvarAt [0, 14000] (19/20) =
          listMean (([0, 14000] : List ℚ).filter
            (fun x => decide (varAt [0, 14000] (19/20) ≤ x))))
    ∧ (([0, 14000] : List ℚ).filter
          (fun x => decide (varAt [0, 14000] (19/20) ≤ x)) = [] →
        cvarAt [0, 14000] (19/20) = varAt [0, 14000] (19/20)) :=
  cvar_tail_mean_spec [0, 14000] (19/20) (by with_unfolding_all decide)

theorem select_small (n : Nat) (empFit : FitResult) (p? nb? : Option FitResult)
    (he : empFit.distribution_type = "empirical")
    (h : n < MIN_SAMPLE_SIZE_PARAMETRIC) :
    select_best_distribution n empFit p? nb? = some empFit := by
  unfold select_best_distribution
  rw [if_neg (by omega : ¬ MIN_SAMPLE_SIZE_PARAMETRIC ≤ n), if_pos h]
  simp [firstEmpirical, he]

theorem firstEmpirical_cons (empFit : FitResult) (l : List FitResult)
    (he : empFit.distribution_type = "empirical") :
    firstEmpirical (empFit :: l) = some empFit := by
  simp [firstEmpirical, he]

/-- Claim C3: model selection returns the Empirical fit whenever the sample
size is below the parametric minimum of 20; for larger samples the parametric
candidates (the Poisson and negative-binomial fits that did not fail) are
compared and the first one of lowest AIC is selected exactly when its
goodness-of-fit p-value exceeds the 0.05 significance level, with Empirical as
the fallback; in particular the 10-observation example sample selects the
Empirical fit. -/
theorem select_best_distribution_spec (n : Nat) (empFit : FitResult)
    (p? nb? : Option FitResult)
    (he : empFit.distribution_type = "empirical")
    (hp : ∀ f ∈ p?.toList, f.distribution_type = "poisson")
    (hnb : ∀ f ∈ nb?.toList, f.distribution_type = "negative_binomial") :
    (n < MIN_SAMPLE_SIZE_PARAMETRIC →
      select_best_distribution n empFit p? nb? = some empFit)
    ∧ (MIN_SAMPLE_SIZE_PARAMETRIC ≤ n →
      select_best_distribution n empFit p? nb? =
        match minByAic (p?.toList ++ nb?.toList) with
        | some best =>
            if GOF_SIGNIFICANCE_LEVEL < best.gof_pvalue then some best
            else some empFit
        | none => some empFit)
    ∧ select_best_distribution exampleData.length empFit none none = some empFit := by
  refine ⟨fun h => select_small n empFit p? nb? he h, ?_,
    select_small _ empFit none none he (by decide)⟩
  intro h
  have hfilter :
      (([empFit] ++ (p?.toList ++ nb?.toList)).filter
        (fun f => f.distribution_type != "empirical")) =
      p?.toList ++ nb?.toList := by
    have hall : ∀ f ∈ p?.toList ++ nb?.toList,
        (f.distribution_type != "empirical") = true := by
      intro f hf
      rcases List.mem_append.mp hf with hf1 | hf2
      · simp [hp f hf1]
      · simp [hnb f hf2]
    simp only [List.cons_append, List.nil_append, List.filter_cons, he]
    rw [if_neg (by simp)]
    exact List.filter_eq_self.mpr hall
  unfold select_best_distribution
  rw [if_pos h, if_neg (by omega : ¬ n < MIN_SAMPLE_SIZE_PARAMETRIC)]
  dsimp only
  rw [hfilter]
  cases hmin : minByAic (p?.toList ++ nb?.toList) with
  | none => simpa using firstEmpirical_cons empFit (p?.toList ++ nb?.toList) he
  | some best =>
    by_cases hb : GOF_SIGNIFICANCE_LEVEL < best.gof_pvalue
    · simp [FitResult.is_good_fit, hb]
    · simp only [FitResult.is_good_fit]
      rw [if_neg (by simpa using hb), if_neg hb]
      simpa using firstEmpirical_cons empFit (p?.toList ++ nb?.toList) he

/-- Claim C3 witness: a 10-observation sample with an empirical fit and no
parametric candidates selects the empirical fit, and the large-sample clause
holds vacuously. -/
theorem select_best_distribution_spec_witness :
    (10 < MIN_SAMPLE_SIZE_PARAMETRIC →
      select_best_distribution 10 ⟨"empirical", 0, 1⟩ none none =
        some ⟨"empirical", 0, 1⟩)
    ∧ (MIN_SAMPLE_SIZE_PARAMETRIC ≤ 10 →
      select_best_distribution 10 ⟨"empirical", 0, 1⟩ none none =
        match minByAic ((none : Option FitResult).toList ++
            (none : Option FitResult).toList) with
        | some best =>
            if GOF_SIGNIFICANCE_LEVEL < best.gof_pvalue then some best
            else some ⟨"empirical", 0, 1⟩
        | none => some ⟨"empirical", 0, 1⟩)
    ∧ select_best_distribution exampleData.length ⟨"empirical", 0, 1⟩ none none =
        some ⟨"empirical", 0, 1⟩ :=
  select_best_distribution_spec 10 ⟨"empirical", 0, 1⟩ none none rfl
    (by simp) (by simp)

/-- Claim C4: in a completed full pricing run the pass-1 capital requirement
(the std-dev proxy `1.5 · 2.33 · std`) is non-negative; the simulated payout
sample is non-negative so its 99th percentile VaR is non-negative and the
final capital requirement `1.5 · VaR99` is non-negative; and the published
premium is the one recomputed with the simulation-produced VaR99, never the
pass-1 std-dev proxy result. -/
theorem capital_nonneg_final_uses_var99
    (ep variance std maxPayout : ℚ) (pp : PricingParameters)
    (strike maxDays : Nat) (rate : ℚ) (days : List ℤ)
    (hstd : 0 ≤ std) (hrate : 0 ≤ rate) :
    0 ≤ (calculate_premium ep variance std maxPayout pp none).capital_required
    ∧ price_contract_pricing ep variance std maxPayout pp
        (varAt (calculate_payout strike maxDays rate days) (99/100)) =
      some (calculate_premium ep variance std maxPayout pp
        (some (varAt (calculate_payout strike maxDays rate days) (99/100))))
    ∧ (calculate_premium ep variance std maxPayout pp
        (some (varAt (calculate_payout strike maxDays rate days) (99/100)))).capital_required
        = CAPITAL_VAR_MULTIPLIER *
            varAt (calculate_payout strike maxDays rate days) (99/100)
    ∧ 0 ≤ (calculate_premium ep variance std maxPayout pp
        (some (varAt (calculate_payout strike maxDays rate days) (99/100)))).capital_required := by
  have hvar : 0 ≤ varAt (calculate_payout strike maxDays rate days) (99/100) := by
    apply npPercentile_nonneg
    intro x hx
    obtain ⟨d, hd, rfl⟩ := List.mem_map.mp hx
    exact payoutOf_nonneg strike maxDays rate hrate d
  refine ⟨?_, rfl, rfl, ?_⟩
  · show 0 ≤ CAPITAL_VAR_MULTIPLIER * (233/100) * std
    have : (0 : ℚ) ≤ CAPITAL_VAR_MULTIPLIER * (233/100) := by
      norm_num [CAPITAL_VAR_MULTIPLIER]
    exact mul_nonneg this hstd
  · show 0 ≤ CAPITAL_VAR_MULTIPLIER *
        varAt (calculate_payout strike maxDays rate days) (99/100)
    exact mul_nonneg (by norm_num [CAPITAL_VAR_MULTIPLIER]) hvar

/-- Claim C4 witness: the run-level capital and repricing facts at a concrete
contract (strike 11, max payout days 7, rate 14000) and payout sample. -/
theorem capital_nonneg_final_uses_var99_witness :
    0 ≤ (calculate_premium 0 0 0 98000 ⟨3/20, 1/20, 1/5, 1000, 3/25⟩ none).capital_required
    ∧ price_contract_pricing 0 0 0 98000 ⟨3/20, 1/20, 1/5, 1000, 3/25⟩
        (varAt (calculate_payout 11 7 14000 [12, 9]) (99/100)) =
      some (calculate_premium 0 0 0 98000 ⟨3/20, 1/20, 1/5, 1000, 3/25⟩
        (some (varAt (calculate_payout 11 7 14000 [12, 9]) (99/100))))
    ∧ (calculate_premium 0 0 0 98000 ⟨3/20, 1/20, 1/5, 1000, 3/25⟩
        (some (varAt (calculate_payout 11 7 14000 [12, 9]) (99/100)))).capital_required
        = CAPITAL_VAR_MULTIPLIER * varAt (calculate_payout 11 7 14000 [12, 9]) (99/100)
    ∧ 0 ≤ (calculate_premium 0 0 0 98000 ⟨3/20, 1/20, 1/5, 1000, 3/25⟩
        (some (varAt (calculate_payout 11 7 14000 [12, 9]) (99/100)))).capital_required :=
  capital_nonneg_final_uses_var99 0 0 0 98000 ⟨3/20, 1/20, 1/5, 1000, 3/25⟩
    11 7 14000 [12, 9] le_rfl (by norm_num)

theorem ep_decomposition (pmf : Nat → ℚ) (s m M : Nat) (r : ℚ)
    (hM : s + m + 1 ≤ M) :
    (calculate_expected_payout pmf (cdfOfPmf pmf) s m r).1 =
      (∑ d ∈ Finset.range M, ((min (d - s) m : Nat) : ℚ) * r * pmf d)
        + (m : ℚ) * r * (1 - ∑ d ∈ Finset.range M, pmf d) := by
  rw [calculate_expected_payout_eq]
  dsimp only
  have e1 : (∑ i ∈ Finset.range m,
      ((min (s + 1 + i - s) m : Nat) : ℚ) * r * pmf (s + 1 + i)) =
      ∑ d ∈ Finset.Ico (s + 1) (s + m + 1), ((min (d - s) m : Nat) : ℚ) * r * pmf d := by
    rw [range_sum_eq_Icc (fun d => ((min (d - s) m : Nat) : ℚ) * r * pmf d) s m,
      ← Nat.Ico_succ_right]
  have hcdf : cdfOfPmf pmf (s + m) = ∑ d ∈ Finset.range (s + m + 1), pmf d :=
    list_range_map_sum pmf (s + m + 1)
  have hT : (∑ d ∈ Finset.range M, pmf d) =
      (∑ d ∈ Finset.range (s + m + 1), pmf d)
        + ∑ d ∈ Finset.Ico (s + m + 1) M, pmf d :=
    (Finset.sum_range_add_sum_Ico pmf hM).symm
  have hP : (∑ d ∈ Finset.range M, ((min (d - s) m : Nat) : ℚ) * r * pmf d) =
      (∑ d ∈ Finset.Ico (s + 1) (s + m + 1), ((min (d - s) m : Nat) : ℚ) * r * pmf d)
        + (m : ℚ) * r * ∑ d ∈ Finset.Ico (s + m + 1) M, pmf d := by
    rw [← Finset.sum_range_add_sum_Ico
        (fun d => ((min (d - s) m : Nat) : ℚ) * r * pmf d) hM,
      ← Finset.sum_range_add_sum_Ico
        (fun d => ((min (d - s) m : Nat) : ℚ) * r * pmf d)
        (by omega : s + 1 ≤ s + m + 1)]
    have hz : (∑ d ∈ Finset.range (s + 1),
        ((min (d - s) m : Nat) : ℚ) * r * pmf d) = 0 := by
      apply Finset.sum_eq_zero
      intro d hd
      have hds : d - s = 0 := by
        have := Finset.mem_range.mp hd
        omega
      simp [hds]
    have htail : (∑ d ∈ Finset.Ico (s + m + 1) M,
        ((min (d - s) m : Nat) : ℚ) * r * pmf d) =
        (m : ℚ) * r * ∑ d ∈ Finset.Ico (s + m + 1) M, pmf d := by
      rw [Finset.mul_sum]
      apply Finset.sum_congr rfl
      intro d hd
      have hdm := (Finset.mem_Ico.mp hd).1
      rw [Nat.min_eq_right (by omega : m ≤ d - s)]
    rw [hz, htail]
    ring
  rw [e1, hcdf, hT, hP]
  ring

/-- Claim C8 (amended): holding the distribution model (a pmf with the code's
cumulative-sum cdf), the maximum payout days and the rate fixed, raising the
strike never increases the analytic expected payout: for strikes `s1 ≤ s2`
the value at `s2` is less than or equal to the value at `s1` (strict decrease
fails when no probability mass lies strictly between `s1` and
`s2 + max_payout_days`). -/
theorem expected_payout_antitone_in_strike (pmf : Nat → ℚ) (s1 s2 m : Nat)
    (r : ℚ) (hr : 0 ≤ r) (hnn : ∀ d, 0 ≤ pmf d) (h12 : s1 ≤ s2) :
    (calculate_expected_payout pmf (cdfOfPmf pmf) s2 m r).1 ≤
      (calculate_expected_payout pmf (cdfOfPmf pmf) s1 m r).1 := by
  rw [ep_decomposition pmf s1 m (s2 + m + 1) r (by omega),
    ep_decomposition pmf s2 m (s2 + m + 1) r (by omega)]
  have hsum : (∑ d ∈ Finset.range (s2 + m + 1),
      ((min (d - s2) m : Nat) : ℚ) * r * pmf d) ≤
      ∑ d ∈ Finset.range (s2 + m + 1), ((min (d - s1) m : Nat) : ℚ) * r * pmf d := by
    apply Finset.sum_le_sum
    intro d _
    apply mul_le_mul_of_nonneg_right _ (hnn d)
    apply mul_le_mul_of_nonneg_right _ hr
    have hmono : min (d - s2) m ≤ min (d - s1) m :=
      min_le_min (Nat.sub_le_sub_left h12 d) le_rfl
    exact_mod_cast hmono
  linarith

/-- Claim C8 witness: the inequality applied to the empirical model of the
example data at strikes 11 and 12. -/
theorem expected_payout_antitone_in_strike_witness :
    (calculate_expected_payout (empPmf exampleFit) (cdfOfPmf (empPmf exampleFit))
        12 7 14000).1 ≤
      (calculate_expected_payout (empPmf exampleFit) (cdfOfPmf (empPmf exampleFit))
        11 7 14000).1 :=
  expected_payout_antitone_in_strike (empPmf exampleFit) 11 12 7 14000
    (by norm_num)
    (empPmf_nonneg exampleFit (by with_unfolding_all decide))
    (by norm_num)

/-- Claim C1: a full simulation run is not reproducible from the configured
seed alone.  The bootstrap method draws only from the globally seeded
generator and is entropy-independent, but the parametric method calls
`DistributionFit.rvs` without a `random_state`, so its variates come from a
fresh `np.random.RandomState(None)` seeded by operating-system entropy: two
executions with the identical distribution, historical data, contract and
seed 42 (modelled by two entropy values) produce different simulated arrays,
contradicting the claimed determinism. -/
theorem simulate_parametric_entropy_dependent :
    (∀ (dist : DistModel) (hist : List ℤ) (n seed : Nat) (w : ℚ) (e1 e2 : Nat),
      simulate_rainy_days dist hist ⟨n, seed, "bootstrap", w⟩ e1 =
        simulate_rainy_days dist hist ⟨n, seed, "bootstrap", w⟩ e2)
    ∧ simulate_rainy_days exampleDist exampleHist ⟨1000, 42, "parametric", 1/2⟩ 0 ≠
        simulate_rainy_days exampleDist exampleHist ⟨1000, 42, "parametric", 1/2⟩ 200000 := by
  constructor
  · intro dist hist n seed w e1 e2
    rfl
  · with_unfolding_all decide

/-- Claim C7 (amended): with the hybrid method the simulator draws exactly
`⌊N·w⌋` values by bootstrap resampling from the historical sample (Python
`int()` truncates; the claim's `round` is wrong), the remaining `N − ⌊N·w⌋`
from the fitted distribution's generator, concatenates the two blocks and
randomly permutes the result, which therefore has length `N` and is a
permutation of the concatenation. -/
theorem hybrid_split_floor_structure (dist : DistModel) (hist : List ℤ)
    (p : SimulationParameters) (entropy : Nat)
    (hm : p.method = "hybrid") (hw0 : 0 ≤ p.bootstrap_weight)
    (hw1 : p.bootstrap_weight ≤ 1) :
    ∃ l : List ℤ,
      simulate_rainy_days dist hist p entropy = some l
      ∧ l = (npShuffle
          ((npChoiceList hist
              (hybridBootstrapCount p.n_simulations p.bootstrap_weight)
              ⟨p.random_seed⟩).1
            ++ dist.rvs (p.n_simulations -
                hybridBootstrapCount p.n_simulations p.bootstrap_weight) none entropy)
          (npChoiceList hist
              (hybridBootstrapCount p.n_simulations p.bootstrap_weight)
              ⟨p.random_seed⟩).2).1
      ∧ l.Perm
          ((npChoiceList hist
              (hybridBootstrapCount p.n_simulations p.bootstrap_weight)
              ⟨p.random_seed⟩).1
            ++ dist.rvs (p.n_simulations -
                hybridBootstrapCount p.n_simulations p.bootstrap_weight) none entropy)
      ∧ (npChoiceList hist
            (hybridBootstrapCount p.n_simulations p.bootstrap_weight)
            ⟨p.random_seed⟩).1.length =
          hybridBootstrapCount p.n_simulations p.bootstrap_weight
      ∧ (dist.rvs (p.n_simulations -
            hybridBootstrapCount p.n_simulations p.bootstrap_weight)
            none entropy).length =
          p.n_simulations - hybridBootstrapCount p.n_simulations p.bootstrap_weight
      ∧ hybridBootstrapCount p.n_simulations p.bootstrap_weight ≤ p.n_simulations
      ∧ l.length = p.n_simulations := by
  have hNB : hybridBootstrapCount p.n_simulations p.bootstrap_weight ≤
      p.n_simulations := by
    unfold hybridBootstrapCount
    rw [Int.toNat_le]
    have h1 : (p.n_simulations : ℚ) * p.bootstrap_weight ≤ (p.n_simulations : ℚ) :=
      mul_le_of_le_one_right (Nat.cast_nonneg _) hw1
    have h2 := Int.floor_le_floor h1
    rwa [Int.floor_natCast] at h2
  have hsim : simulate_rainy_days dist hist p entropy =
      some (npShuffle
        ((npChoiceList hist
            (hybridBootstrapCount p.n_simulations p.bootstrap_weight)
            ⟨p.random_seed⟩).1
          ++ dist.rvs (p.n_simulations -
              hybridBootstrapCount p.n_simulations p.bootstrap_weight) none entropy)
        (npChoiceList hist
            (hybridBootstrapCount p.n_simulations p.bootstrap_weight)
            ⟨p.random_seed⟩).2).1 := by
    unfold simulate_rainy_days
    dsimp only
    rw [hm]
    rw [if_neg (by decide), if_neg (by decide), if_pos rfl]
  refine ⟨_, hsim, rfl, npShuffle_perm _ _, npChoiceList_length _ _ _,
    rvs_length _ _ _ _, hNB, ?_⟩
  have hlen := (npShuffle_perm
    ((npChoiceList hist
        (hybridBootstrapCount p.n_simulations p.bootstrap_weight)
        ⟨p.random_seed⟩).1
      ++ dist.rvs (p.n_simulations -
          hybridBootstrapCount p.n_simulations p.bootstrap_weight) none entropy)
    (npChoiceList hist
        (hybridBootstrapCount p.n_simulations p.bootstrap_weight)
        ⟨p.random_seed⟩).2).length_eq
  rw [hlen, List.length_append, npChoiceList_length, rvs_length]
  omega

/-- Claim C7 witness: the hybrid decomposition at the example distribution and
data, 1000 trials, seed 42, weight one half. -/
theorem hybrid_split_floor_structure_witness :
    ∃ l : List ℤ,
      simulate_rainy_days exampleDist exampleHist ⟨1000, 42, "hybrid", 1/2⟩ 0 = some l
      ∧ l = (npShuffle
          ((npChoiceList exampleHist (hybridBootstrapCount 1000 (1/2)) ⟨42⟩).1
            ++ exampleDist.rvs (1000 - hybridBootstrapCount 1000 (1/2)) none 0)
          (npChoiceList exampleHist (hybridBootstrapCount 1000 (1/2)) ⟨42⟩).2).1
      ∧ l.Perm
          ((npChoiceList exampleHist (hybridBootstrapCount 1000 (1/2)) ⟨42⟩).1
            ++ exampleDist.rvs (1000 - hybridBootstrapCount 1000 (1/2)) none 0)
      ∧ (npChoiceList exampleHist (hybridBootstrapCount 1000 (1/2)) ⟨42⟩).1.length =
          hybridBootstrapCount 1000 (1/2)
      ∧ (exampleDist.rvs (1000 - hybridBootstrapCount 1000 (1/2)) none 0).length =
          1000 - hybridBootstrapCount 1000 (1/2)
      ∧ hybridBootstrapCount 1000 (1/2) ≤ 1000
      ∧ l.length = 1000 :=
  hybrid_split_floor_structure exampleDist exampleHist ⟨1000, 42, "hybrid", 1/2⟩ 0
    rfl (by norm_num) (by norm_num)
